import Mathlib

/-!
Shallow embedding of the tv-currencies-watcher extraction pipeline
(src/cloud/parsing.py, src/cloud/scraper.py, src/cloud/db.py,
src/cloud/backfill_pricescale.py) and proofs about the frozen claims.

JSON values decoded by Python's json module are modelled by the inductive
type J below.  Python dicts are association lists in document / insertion
order (json.loads produces dicts with unique keys, so first-match lookup
agrees with Python lookup).  Python None and JSON null are both J.jnull:
the source only ever observes payload values through dict.get, which
returns None both for a missing key and for a stored null, except where
noted (membership tests use lookupField, which sees presence).

External collaborators (the json.loads text parser and datetime's
ISO-8601 parser) are passed in as function parameters; the repository
code is translated around them.
-/

namespace TVW

/-- Python/JSON values as produced by json.loads.  Python bool is a
subclass of int, which matters for the isinstance(x, int) checks in the
source, so jbool is kept separate and asInt accepts it. -/
inductive J where
  | jnull : J
  | jbool : Bool → J
  | jint : Int → J
  | jstr : String → J
  | jarr : List J → J
  | jobj : List (String × J) → J

/-- Python truthiness of a JSON value (None, False, 0, empty string,
empty list and empty dict are falsy). -/
def pyTruthy : J → Bool
  | J.jnull => false
  | J.jbool b => b
  | J.jint n => n != 0
  | J.jstr s => s != ""
  | J.jarr l => !l.isEmpty
  | J.jobj l => !l.isEmpty

/-- Python `a or b`. -/
def pyOr (a b : J) : J := if pyTruthy a then a else b

/-- Python `a or \x7b\x7d` (defaulting a falsy value to an empty dict). -/
def pyOrObj (a : J) : J := pyOr a (J.jobj [])

/-- Presence-aware lookup in a dict: models Python `key in d` / `d[key]`.
Returns some v (possibly some jnull) iff the key is present. -/
def lookupField : List (String × J) → String → Option J
  | [], _ => none
  | p :: rest, k => if p.1 = k then some p.2 else lookupField rest k

/-- Python `d.get(key)` on a dict given as a field list: jnull when the
key is absent (Python returns None, indistinguishable from a stored null
for this code). -/
def jGet (fs : List (String × J)) (k : String) : J :=
  match lookupField fs k with
  | some v => v
  | none => J.jnull

/-- Python `x.get(key)` where the source expects x to be a dict.  On a
non-dict the source would raise AttributeError; that branch is reached
only for payloads that place a truthy non-dict where the code reads a
dict, which no claim exercises, and is modelled as jnull. -/
def pyGetD (x : J) (k : String) : J :=
  match x with
  | J.jobj fs => jGet fs k
  | _ => J.jnull

/-- Python `isinstance(x, int)` together with the int value: ints match,
and bools match too (bool is a subclass of int in Python). -/
def asInt : J → Option Int
  | J.jint n => some n
  | J.jbool b => some (if b then 1 else 0)
  | _ => none

/-- Python `x is None` on a value read through dict.get. -/
def J.isNull : J → Bool
  | J.jnull => true
  | _ => false

/-- Whether a value is a Python dict (isinstance(x, dict)). -/
def isObjB : J → Bool
  | J.jobj _ => true
  | _ => false

/-- Whether a character list starts with a pattern. -/
def charsStartWith : List Char → List Char → Bool
  | _, [] => true
  | [], _ :: _ => false
  | c :: cs, p :: ps => c = p && charsStartWith cs ps

/-- Whether a character list contains a pattern as a contiguous
sub-list, at this position or later. -/
def charsContain : List Char → List Char → Bool
  | [], pat => pat.isEmpty
  | c :: cs, pat => charsStartWith (c :: cs) pat || charsContain cs pat

/-- Python substring test `pat in s`, over the underlying character
lists. -/
def strContainsSub (s pat : String) : Bool :=
  charsContain s.data pat.data

/-- Python `isinstance(t, str) and pat in t`. -/
def strIsContaining (t : J) (pat : String) : Bool :=
  match t with
  | J.jstr s => strContainsSub s pat
  | _ => false

/-- A path key for _safe_get: the source paths mix string dict keys and
int list indexes. -/
inductive PKey where
  | s : String → PKey
  | n : Nat → PKey

/-- Model of parsing._safe_get: walk a path of dict keys / list indexes,
returning None on the first mismatch.  List indexes in the source paths
are the literal 0, so Nat faithfully covers the 0 <= key < len check. -/
def _safe_get : J → List PKey → Option J
  | cur, [] => some cur
  | cur, k :: rest =>
    match cur, k with
    | J.jobj fs, PKey.s key =>
      match lookupField fs key with
      | some v => _safe_get v rest
      | none => none
    | J.jarr l, PKey.n i =>
      match l.get? i with
      | some v => _safe_get v rest
      | none => none
    | _, _ => none

/-- The first structural path of _extract_elements_from_content and
_iter_sources: ["panes", 0, "sources"]. -/
def path1 : List PKey := [PKey.s "panes", PKey.n 0, PKey.s "sources"]

/-- The second structural path: ["charts", 0, "panes", 0, "sources"]. -/
def path2 : List PKey := [PKey.s "charts", PKey.n 0, PKey.s "panes", PKey.n 0, PKey.s "sources"]

/-- The projection appended for each matching source in
_extract_elements_from_content: item.get of type, state, points,
indexes (Python dict.get defaults each to None). -/
def projectElem (item : J) : J :=
  J.jobj [("type", pyGetD item "type"), ("state", pyGetD item "state"),
          ("points", pyGetD item "points"), ("indexes", pyGetD item "indexes")]

/-- The per-item test of _extract_elements_from_content:
typ = item.get("type", "") (note the "" default applies only when the
key is absent), then isinstance(typ, str) and "LineTool" in typ. -/
def isLineToolItem (item : J) : Bool :=
  match item with
  | J.jobj fs =>
    match lookupField fs "type" with
    | some t => strIsContaining t "LineTool"
    | none => strIsContaining (J.jstr "") "LineTool"
  | _ => false

/-- Inner loop of _extract_elements_from_content over one sources list:
skip non-dict items, append the projection of items whose type contains
"LineTool". -/
def extractElementsLoop (sources : List J) (out : List J) : List J :=
  match sources with
  | [] => out
  | item :: rest =>
    match item with
    | J.jobj fs =>
      if isLineToolItem (J.jobj fs) then
        extractElementsLoop rest (out ++ [projectElem (J.jobj fs)])
      else
        extractElementsLoop rest out
    | _ => extractElementsLoop rest out

/-- One path step of _extract_elements_from_content: run the inner loop
when _safe_get finds a list at the path. -/
def extractElementsAtPath (content : J) (p : List PKey) (out : List J) : List J :=
  match _safe_get content p with
  | some (J.jarr sources) => extractElementsLoop sources out
  | _ => out

/-- Model of parsing._extract_elements_from_content applied after the
content-as-string decode step: explore path1 then path2, accumulating
projections of "LineTool"-typed dict entries. -/
def extractElementsCore (content : J) : List J :=
  extractElementsAtPath content path2 (extractElementsAtPath content path1 [])

/-- Model of parsing._extract_elements_from_content.  jsonLoads is the
external json.loads: a str content is decoded first (decode failure
yields []); any other content goes straight to the two paths. -/
def _extract_elements_from_content (jsonLoads : String → Option J) (content : J) : List J :=
  match content with
  | J.jstr s =>
    match jsonLoads s with
    | some c => extractElementsCore c
    | none => []
  | c => extractElementsCore c

/-- Inner loop of _iter_sources over one sources list: collect the dict
items. -/
def iterSourcesLoop (sources : List J) (out : List J) : List J :=
  match sources with
  | [] => out
  | item :: rest =>
    match item with
    | J.jobj fs => iterSourcesLoop rest (out ++ [J.jobj fs])
    | _ => iterSourcesLoop rest out

/-- One path step of _iter_sources. -/
def iterSourcesAtPath (content : J) (p : List PKey) (out : List J) : List J :=
  match _safe_get content p with
  | some (J.jarr sources) => iterSourcesLoop sources out
  | _ => out

/-- Model of parsing._iter_sources applied after the string decode step:
all dict sources from path1 then path2. -/
def iterSourcesCore (content : J) : List J :=
  iterSourcesAtPath content path2 (iterSourcesAtPath content path1 [])

/-- Model of parsing._iter_sources: decode a str content via json.loads
(failure yields []), then collect dict sources from both paths. -/
def _iter_sources (jsonLoads : String → Option J) (content : J) : List J :=
  match content with
  | J.jstr s =>
    match jsonLoads s with
    | some c => iterSourcesCore c
    | none => []
  | c => iterSourcesCore c

/-- The symbol-level candidate of get_pricescale_from_idea:
sym = idea.get("symbol") or \x7b\x7d; ps = sym.get("pricescale");
if ps is None: ps = sym.get("price_scale").  Note price_scale is read
only when pricescale came back None. -/
def symbolCandidate (idea : List (String × J)) : J :=
  let sym := pyOrObj (jGet idea "symbol")
  let ps := pyGetD sym "pricescale"
  if ps.isNull then pyGetD sym "price_scale" else ps

/-- First content loop of get_pricescale_from_idea: among sources whose
type contains "MainSeries" (after defaulting a falsy type to ""), return
the first integer state.pricescale, else formattingDeps.pricescale. -/
def pricescaleFromMainSeries : List J → Option Int
  | [] => none
  | src :: rest =>
    let t := pyOr (pyGetD src "type") (J.jstr "")
    if strIsContaining t "MainSeries" then
      let state := pyOrObj (pyGetD src "state")
      let fmt := pyOrObj (pyGetD src "formattingDeps")
      match asInt (pyGetD state "pricescale") with
      | some n => some n
      | none =>
        match asInt (pyGetD fmt "pricescale") with
        | some n => some n
        | none => pricescaleFromMainSeries rest
    else pricescaleFromMainSeries rest

/-- Second content loop of get_pricescale_from_idea: any source's
integer state.pricescale, else formattingDeps.pricescale. -/
def pricescaleFromAnySource : List J → Option Int
  | [] => none
  | src :: rest =>
    let state := pyOrObj (pyGetD src "state")
    let fmt := pyOrObj (pyGetD src "formattingDeps")
    match asInt (pyGetD state "pricescale") with
    | some n => some n
    | none =>
      match asInt (pyGetD fmt "pricescale") with
      | some n => some n
      | none => pricescaleFromAnySource rest

/-- Model of parsing.get_pricescale_from_idea: symbol-level candidate if
it is an int, else the MainSeries content loop, else the any-source
content loop over _iter_sources(idea.get("content")). -/
def get_pricescale_from_idea (jsonLoads : String → Option J) (idea : List (String × J)) : Option Int :=
  match asInt (symbolCandidate idea) with
  | some n => some n
  | none =>
    let sources := _iter_sources jsonLoads (jGet idea "content")
    match pricescaleFromMainSeries sources with
    | some n => some n
    | none => pricescaleFromAnySource sources

mutual

/-- Model of parse_detail_page's _deep_find: depth-first search for a
key in a nested dict/list structure.  On a dict, if the key is present
the stored value is returned at once (a stored null returns Python None,
which callers treat as not-found, and the rest of this dict is not
explored); otherwise the dict's values are searched in insertion order;
lists are searched in element order; scalars yield nothing. -/
def deepFind : J → String → Option J
  | J.jobj fs, key =>
    match lookupField fs key with
    | some v => if v.isNull then none else some v
    | none => deepFindFields fs key
  | J.jarr l, key => deepFindList l key
  | _, _ => none

/-- Depth-first search over a dict's values in insertion order (Python
iterates data.values()): first non-None result. -/
def deepFindFields : List (String × J) → String → Option J
  | [], _ => none
  | p :: rest, key =>
    match deepFind p.2 key with
    | some r => some r
    | none => deepFindFields rest key

/-- Depth-first search over a list of values: first non-None result. -/
def deepFindList : List J → String → Option J
  | [], _ => none
  | v :: rest, key =>
    match deepFind v key with
    | some r => some r
    | none => deepFindList rest key

end

/-- The script-scanning loop of parse_detail_page: skip scripts with a
falsy string (None or empty), skip scripts whose text does not parse as
JSON, and return the field list of the first script whose _deep_find
for "ssrIdeaData" yields a dict; a non-dict find does not stop the scan. -/
def findIdea (jsonLoads : String → Option J) : List (Option String) → Option (List (String × J))
  | [] => none
  | none :: rest => findIdea jsonLoads rest
  | some s :: rest =>
    if s = "" then findIdea jsonLoads rest
    else
      match jsonLoads s with
      | none => findIdea jsonLoads rest
      | some j =>
        match deepFind j "ssrIdeaData" with
        | some (J.jobj fs) => some fs
        | _ => findIdea jsonLoads rest

/-- Model of parsing.iso_to_epoch: a falsy input yields None; a string
is handed (with "Z" replaced by "+00:00") to the external ISO-8601
parser isoEpoch; a truthy non-string raises inside the try block in the
source and is caught, yielding None. -/
def iso_to_epoch (isoEpoch : String → Option Int) (x : J) : Option Int :=
  if pyTruthy x then
    match x with
    | J.jstr s => isoEpoch (s.replace "Z" "+00:00")
    | _ => none
  else none

/-- An Option Int stored into a Python dict slot: None becomes null. -/
def optIntToJ : Option Int → J
  | some n => J.jint n
  | none => J.jnull

/-- The nested data dict built by parse_detail_page. -/
structure DataObj where
  chart_url : J
  name : J
  webp_url : J
  updated_at : J
  likes_count : J
  comments_count : J
  views : J
  description_ast : J
  updates : J
  elements : List J
  pricescale : J

/-- The record returned by parse_detail_page. -/
structure DetailRecord where
  username : J
  symbol : J
  created_at : J
  interval : J
  direction : J
  data : DataObj

/-- The empty-but-typed record parse_detail_page returns when no script
fragment yields an ssrIdeaData dict. -/
def emptyRecord : DetailRecord where
  username := J.jnull
  symbol := J.jnull
  created_at := J.jnull
  interval := J.jnull
  direction := J.jnull
  data :=
    { chart_url := J.jnull, name := J.jnull, webp_url := J.jnull,
      updated_at := J.jnull, likes_count := J.jnull, comments_count := J.jnull,
      views := J.jnull, description_ast := J.jnull, updates := J.jnull,
      elements := [], pricescale := J.jnull }

/-- An HTML document at the BeautifulSoup boundary: the href attributes
of its anchor elements in document order (find_all "a" with href), and
the string contents of its script tags of type
application/prs.init-data+json in document order (none when the tag has
no string child). -/
structure Html where
  anchors : List String
  scripts : List (Option String)

/-- Model of parsing.parse_detail_page: find the first ssrIdeaData dict
among the marker-tagged scripts; on failure return the fixed null-filled
record; otherwise build the record field by field as the source does. -/
def parse_detail_page (jsonLoads : String → Option J) (isoEpoch : String → Option Int)
    (h : Html) : DetailRecord :=
  match findIdea jsonLoads h.scripts with
  | none => emptyRecord
  | some idea =>
    let content := jGet idea "content"
    let elements := _extract_elements_from_content jsonLoads content
    let sym_obj := pyOrObj (jGet idea "symbol")
    let pricescale := get_pricescale_from_idea jsonLoads idea
    { username := pyGetD (pyOrObj (jGet idea "user")) "username",
      symbol := pyOr (pyGetD (pyOrObj sym_obj) "short_name") (J.jstr "NONE"),
      created_at := optIntToJ (iso_to_epoch isoEpoch (jGet idea "created_at")),
      interval := jGet idea "interval",
      direction := jGet idea "direction",
      data :=
        { chart_url := pyOr (jGet idea "publicPath") (jGet idea "chart_url"),
          name := jGet idea "name",
          webp_url := pyOr (jGet idea "webpUrl") (jGet idea "webp_url"),
          updated_at := jGet idea "updated_at",
          likes_count := jGet idea "likes_count",
          comments_count := jGet idea "comments_count",
          views := jGet idea "views",
          description_ast := jGet idea "description_ast",
          updates := jGet idea "updates",
          elements := elements,
          pricescale := optIntToJ pricescale } }

/-- One listing discovery item, the dict with keys uuid and url built by
parse_listing_for_uuids_and_links. -/
structure ListingItem where
  uuid : String
  url : String
deriving DecidableEq, Repr

/-- Python full.strip of the slash character: drop leading and trailing
slashes. -/
def stripSlashes (s : String) : String :=
  String.mk (((s.data.dropWhile (fun c => c = '/')).reverse.dropWhile (fun c => c = '/')).reverse)

/-- Python parts.index(x): index of the first occurrence, none when the
element is absent (where Python raises ValueError, caught by the
enclosing except which continues the loop). -/
def listFindIdx : List String → String → Option Nat
  | [], _ => none
  | x :: xs, t => if x = t then some 0 else (listFindIdx xs t).map (fun i => i + 1)

/-- One anchor step of parse_listing_for_uuids_and_links: skip hrefs not
containing "/chart/"; normalize a path-only href to an absolute URL;
split the stripped URL on "/"; locate the "chart" segment and read the
following symbol and uuid segments (any failure is swallowed by the
except and the anchor is skipped); the uuid is the part of that segment
before the first dash. -/
def listingItemOfHref (href : String) : Option ListingItem :=
  if strContainsSub href "/chart/" then
    let full := if href.startsWith "/" then "https://www.tradingview.com" ++ href else href
    let parts := (stripSlashes full).splitOn "/"
    match listFindIdx parts "chart" with
    | none => none
    | some idx =>
      match parts.get? (idx + 1), parts.get? (idx + 2) with
      | some symbol, some seg =>
        let uuid := (seg.splitOn "-").headD ""
        some { uuid := uuid,
               url := "https://www.tradingview.com/chart/" ++ symbol ++ "/" ++ uuid }
      | _, _ => none
  else none

/-- The final de-dupe-keep-order loop of parse_listing_for_uuids_and_links. -/
def dedupeByUuid : List ListingItem → List String → List ListingItem
  | [], _ => []
  | i :: rest, seen =>
    if seen.contains i.uuid then dedupeByUuid rest seen
    else i :: dedupeByUuid rest (i.uuid :: seen)

/-- Model of parsing.parse_listing_for_uuids_and_links: scan the anchor
hrefs in document order, collect the items that parse, and de-duplicate
by uuid keeping the first occurrence. -/
def parse_listing_for_uuids_and_links (h : Html) : List ListingItem :=
  dedupeByUuid (h.anchors.filterMap listingItemOfHref) []

/-- A database effect issued during a crawl run.  upsert models
db.upsert_full_record; firstSeen models db.insert_first_seen, present in
the vocabulary so that its absence from every trace is a statement about
the orchestrator. -/
inductive DbOp where
  | upsert : String → DetailRecord → DbOp
  | firstSeen : String → String → DbOp

/-- Whether a database effect is an upsert. -/
def DbOp.isUpsert : DbOp → Bool
  | DbOp.upsert _ _ => true
  | _ => false

/-- Whether a database effect is a firstSeen insert. -/
def DbOp.isFirstSeen : DbOp → Bool
  | DbOp.firstSeen _ _ => true
  | _ => false

/-- Whether a database effect is an upsert of the given uuid. -/
def DbOp.isUpsertOf (u : String) : DbOp → Bool
  | DbOp.upsert v _ => v = u
  | _ => false

/-- Outcome of one transport attempt inside http_get: a response with a
status code and body text, or a raised transport exception. -/
inductive TResult (ε : Type) where
  | resp : Nat → String → TResult ε
  | exc : ε → TResult ε

/-- The "last error" remembered by http_get: a non-success HTTP status
for the URL, or the transport-level cause. -/
inductive FetchErr (ε : Type) where
  | httpStatus : Nat → String → FetchErr ε
  | cause : ε → FetchErr ε
deriving DecidableEq, Repr

/-- Whether one transport attempt counts as a failed attempt in
scraper.http_get (status outside 200..299, or an exception). -/
def isFailAttempt {ε : Type} : TResult ε → Bool
  | TResult.resp st _ => !(200 ≤ st && st < 300)
  | TResult.exc _ => true

/-- The last-error value http_get stores for a failed attempt. -/
def errOf {ε : Type} (r : TResult ε) (url : String) : FetchErr ε :=
  match r with
  | TResult.resp st _ => FetchErr.httpStatus st url
  | TResult.exc e => FetchErr.cause e

/-- The retry loop of scraper.http_get, counting down the remaining
attempts k while the current attempt number ascends.  Produces the call
outcome (Except.error none models the `raise last_err` reached with no
recorded error, the R = 0 degenerate case), the list of back-off sleep
durations in order, and the number of transport attempts made. -/
def httpGetLoop {ε : Type} (transport : Nat → TResult ε) (base R : Nat) (url : String) :
    Nat → Nat → Option (FetchErr ε) → Except (Option (FetchErr ε)) String × List Nat × Nat
  | _, 0, last => (Except.error last, [], 0)
  | attempt, k + 1, _ =>
    match transport attempt with
    | TResult.resp st text =>
      if 200 ≤ st && st < 300 then (Except.ok text, [], 1)
      else
        let e := FetchErr.httpStatus st url
        let sleeps := if attempt < R then [base * attempt] else []
        let r := httpGetLoop transport base R url (attempt + 1) k (some e)
        (r.1, sleeps ++ r.2.1, r.2.2 + 1)
    | TResult.exc e0 =>
      let e := FetchErr.cause e0
      let sleeps := if attempt < R then [base * attempt] else []
      let r := httpGetLoop transport base R url (attempt + 1) k (some e)
      (r.1, sleeps ++ r.2.1, r.2.2 + 1)

/-- Model of scraper.http_get (the identical copy in
backfill_pricescale.py included): attempts numbered 1..R against the
transport, success on a 2xx status, a back-off sleep of base * attempt
seconds after each failed attempt except the last, and the last error
raised once attempts are exhausted. -/
def http_get {ε : Type} (transport : Nat → TResult ε) (base R : Nat) (url : String) :
    Except (Option (FetchErr ε)) String × List Nat × Nat :=
  httpGetLoop transport base R url 1 R none

/-- A persisted row of the charts table (db.Chart). -/
structure ChartRow where
  uuid : String
  username : Option String
  symbol : Option String
  created_at : Option Int
  interval : Option String
  direction : Option String
  data : Option J
  scraped_at : Option Int
  first_seen_at : Int
  source_page : String

/-- PostgreSQL jsonb_set with a one-key path and create_missing true, on
an object target: replace the value stored at the key, or add the key
when absent.  PostgreSQL errors on a scalar target and returns SQL NULL
for a NULL target; the scalar case (returned unchanged here) is outside
every claim, and the NULL case is handled by the caller's Option.map. -/
def jsonb_set_top (d : J) (k : String) (v : J) : J :=
  match d with
  | J.jobj fs =>
    if fs.any (fun p => p.1 = k) then
      J.jobj (fs.map (fun p => if p.1 = k then (k, v) else p))
    else
      J.jobj (fs ++ [(k, v)])
  | other => other

/-- Model of the non-dry-run UPDATE of backfill_pricescale.main:
set data = jsonb_set(data, pricescale path, to_jsonb(ps), true) and
scraped_at = now_epoch, leaving every other column alone. -/
def backfill_patch (row : ChartRow) (ps : Int) (now_epoch : Int) : ChartRow :=
  { row with
    data := row.data.map (fun d => jsonb_set_top d "pricescale" (J.jint ps)),
    scraped_at := some now_epoch }

/-- Lookup of a payload field on a nullable jsonb column: some value iff
the column holds an object in which the key is present. -/
def jLookup (od : Option J) (k : String) : Option J :=
  match od with
  | some (J.jobj fs) => lookupField fs k
  | _ => none

/-! Helper lemmas shared by the claim theorems. -/

/-- A truthy value is not null. -/
lemma pyTruthy_ne_null (x : J) (hx : pyTruthy x = true) : x ≠ J.jnull := by
  intro h
  subst h
  simp [pyTruthy] at hx

/-- Python `x or d` with a non-null default is never null. -/
lemma pyOr_ne_null (x d : J) (hd : d ≠ J.jnull) : pyOr x d ≠ J.jnull := by
  unfold pyOr
  split
  · exact pyTruthy_ne_null x (by assumption)
  · exact hd

/-- The script scan yields nothing when no parseable nonempty script
fragment deep-finds a dict under ssrIdeaData. -/
lemma findIdea_eq_none (jl : String → Option J) :
    ∀ scripts : List (Option String),
      (∀ s, some s ∈ scripts → s ≠ "" → ∀ j, jl s = some j →
        ∀ fs, deepFind j "ssrIdeaData" ≠ some (J.jobj fs)) →
      findIdea jl scripts = none := by
  intro scripts
  induction scripts with
  | nil => intro _; rfl
  | cons os rest ih =>
    intro hyp
    have hrest := ih (fun s hs => hyp s (List.mem_cons_of_mem _ hs))
    cases os with
    | none => simpa [findIdea] using hrest
    | some s =>
      by_cases hse : s = ""
      · subst hse
        simpa [findIdea] using hrest
      · rw [findIdea, if_neg hse]
        cases hjl : jl s with
        | none => simpa using hrest
        | some j =>
          cases hdf : deepFind j "ssrIdeaData" with
          | none => simpa [hdf] using hrest
          | some r =>
            cases r with
            | jobj fs =>
              exact absurd hdf (hyp s (List.mem_cons_self _ _) hse j hjl fs)
            | jnull => simpa [hdf] using hrest
            | jbool b => simpa [hdf] using hrest
            | jint n => simpa [hdf] using hrest
            | jstr s2 => simpa [hdf] using hrest
            | jarr l => simpa [hdf] using hrest

/-- Claim C6 (confirmed): for every HTML input lacking the detail-page
content marker (no marker-tagged scripts at all), or whose marked
fragments contain no idea-payload dict under ssrIdeaData,
parse_detail_page returns the fixed record shape with every top-level
field null, every payload field null and an empty elements list; the
model is total, matching the never-raises contract. -/
theorem c6_theorem (jl : String → Option J) (iso : String → Option Int) (h : Html)
    (hnone : ∀ s, some s ∈ h.scripts → s ≠ "" → ∀ j, jl s = some j →
      ∀ fs, deepFind j "ssrIdeaData" ≠ some (J.jobj fs)) :
    parse_detail_page jl iso h = emptyRecord := by
  unfold parse_detail_page
  rw [findIdea_eq_none jl h.scripts hnone]

/-- Witness for C6: a concrete page with an anchor but no marker-tagged
script yields exactly the null-filled record. -/
theorem c6_witness :
    parse_detail_page (fun _ => none) (fun _ => none)
      { anchors := ["/chart/EURUSD/abc1"], scripts := [] } = emptyRecord :=
  c6_theorem (fun _ => none) (fun _ => none)
    { anchors := ["/chart/EURUSD/abc1"], scripts := [] }
    (fun s hs => absurd hs (List.not_mem_nil (some s)))

/-- Counterexample to claim C5: on an HTML input with no marker-tagged
script at all, the returned record's symbol field is null, not the
sentinel "NONE" the claim promises for every HTML input. -/
theorem c5_counterexample :
    (parse_detail_page (fun _ => none) (fun _ => none)
        { anchors := [], scripts := [] }).symbol = J.jnull ∧
    (parse_detail_page (fun _ => none) (fun _ => none)
        { anchors := [], scripts := [] }).symbol ≠ J.jstr "NONE" :=
  ⟨rfl, fun h => J.noConfusion h⟩

/-- Claim C5 as amended: when an idea payload dict is found, the symbol
field is the nested symbol object's short-name when that value is
truthy, is the sentinel string "NONE" whenever the short-name is absent
or falsy, and is never null; when no idea payload is found the symbol
field is null like every other top-level field. -/
theorem c5_amended :
    (∀ (jl : String → Option J) (iso : String → Option Int) (h : Html),
      findIdea jl h.scripts = none → (parse_detail_page jl iso h).symbol = J.jnull) ∧
    (∀ (jl : String → Option J) (iso : String → Option Int) (h : Html)
      (fs : List (String × J)),
      findIdea jl h.scripts = some fs →
      (parse_detail_page jl iso h).symbol =
        pyOr (pyGetD (pyOrObj (pyOrObj (jGet fs "symbol"))) "short_name") (J.jstr "NONE") ∧
      (pyTruthy (pyGetD (pyOrObj (pyOrObj (jGet fs "symbol"))) "short_name") = false →
        (parse_detail_page jl iso h).symbol = J.jstr "NONE") ∧
      (parse_detail_page jl iso h).symbol ≠ J.jnull) := by
  constructor
  · intro jl iso h hnone
    unfold parse_detail_page
    rw [hnone]
    rfl
  · intro jl iso h fs hsome
    have hval : (parse_detail_page jl iso h).symbol =
        pyOr (pyGetD (pyOrObj (pyOrObj (jGet fs "symbol"))) "short_name") (J.jstr "NONE") := by
      unfold parse_detail_page
      rw [hsome]
    refine ⟨hval, ?_, ?_⟩
    · intro hfalsy
      rw [hval]
      unfold pyOr
      rw [hfalsy]
      rfl
    · rw [hval]
      exact pyOr_ne_null _ _ (fun h2 => J.noConfusion h2)

/-- The json.loads stub used by the C5 witness: one parseable page
fragment holding an ssrIdeaData dict with no symbol object. -/
def c5jl : String → Option J := fun s =>
  if s = "payload" then some (J.jobj [("ssrIdeaData", J.jobj [])]) else none

/-- Witness for C5 as amended: a page whose marker-tagged script yields
an idea payload without a symbol short-name gets the sentinel "NONE"
symbol, and a page whose only marker-tagged script has no string content
yields a null symbol field. -/
theorem c5_witness :
    (parse_detail_page c5jl (fun _ => none)
        { anchors := [], scripts := [some "payload"] }).symbol = J.jstr "NONE" ∧
    (parse_detail_page (fun _ => none) (fun _ => none)
        { anchors := [], scripts := [none] }).symbol = J.jnull :=
  ⟨(c5_amended.2 c5jl (fun _ => none)
      { anchors := [], scripts := [some "payload"] } [] rfl).2.1 rfl,
   c5_amended.1 (fun _ => none) (fun _ => none) { anchors := [], scripts := [none] } rfl⟩

/-- Counterexample to claim C2: a listing page whose discovery items are
carried only in an embedded marker-tagged JSON fragment, with no
matching anchors, yields no ListingItems at all — there is no
structured-JSON strategy in parse_listing_for_uuids_and_links, which
reads only the anchors. -/
theorem c2_counterexample :
    parse_listing_for_uuids_and_links
        { anchors := [],
          scripts := [some "prs-init-data ideas id abc123 path /chart/EURUSD/abc123/"] } = [] ∧
    ListingItem.mk "abc123" "https://www.tradingview.com/chart/EURUSD/abc123" ∉
      parse_listing_for_uuids_and_links
        { anchors := [],
          scripts := [some "prs-init-data ideas id abc123 path /chart/EURUSD/abc123/"] } :=
  ⟨rfl, by decide⟩

/-- Claim C2 as amended: the listing extractor applies only the
anchor-scan strategy; embedded JSON fragments never contribute items, so
a listing page with no anchors yields the empty item list whatever its
scripts carry. -/
theorem c2_amended (h : Html) (ha : h.anchors = []) :
    parse_listing_for_uuids_and_links h = [] := by
  simp [parse_listing_for_uuids_and_links, ha, dedupeByUuid]

/-- Witness for C2 as amended: a concrete anchor-free page with two
script fragments yields no items. -/
theorem c2_witness :
    parse_listing_for_uuids_and_links
      { anchors := [], scripts := [none, some "fragment"] } = [] :=
  c2_amended { anchors := [], scripts := [none, some "fragment"] } rfl

/-- The list carried at a structural path: the array found by _safe_get,
or the empty list when the path is missing or does not hold an array. -/
def sourcesListAt (c : J) (p : List PKey) : List J :=
  match _safe_get c p with
  | some (J.jarr l) => l
  | _ => []

/-- The elements loop is the filter of dict entries whose type contains
the marker, projected, appended after the accumulator. -/
lemma extractElementsLoop_eq : ∀ (sources out : List J),
    extractElementsLoop sources out =
      out ++ ((sources.filter isObjB).filter isLineToolItem).map projectElem := by
  intro sources
  induction sources with
  | nil => intro out; simp [extractElementsLoop]
  | cons item rest ih =>
    intro out
    cases item with
    | jobj fs =>
      by_cases hl : isLineToolItem (J.jobj fs) = true
      · calc extractElementsLoop (J.jobj fs :: rest) out
            = extractElementsLoop rest (out ++ [projectElem (J.jobj fs)]) := by
              simp [extractElementsLoop, hl]
          _ = (out ++ [projectElem (J.jobj fs)]) ++
                ((rest.filter isObjB).filter isLineToolItem).map projectElem := ih _
          _ = out ++ (((J.jobj fs :: rest).filter isObjB).filter isLineToolItem).map
                projectElem := by
              simp [List.filter_cons, isObjB, hl]
      · have hl2 : isLineToolItem (J.jobj fs) = false := by
          simpa using hl
        calc extractElementsLoop (J.jobj fs :: rest) out
            = extractElementsLoop rest out := by simp [extractElementsLoop, hl2]
          _ = out ++ ((rest.filter isObjB).filter isLineToolItem).map projectElem := ih _
          _ = out ++ (((J.jobj fs :: rest).filter isObjB).filter isLineToolItem).map
                projectElem := by
              simp [List.filter_cons, isObjB, hl2]
    | jnull => simpa [extractElementsLoop, List.filter_cons, isObjB] using ih out
    | jbool b => simpa [extractElementsLoop, List.filter_cons, isObjB] using ih out
    | jint n => simpa [extractElementsLoop, List.filter_cons, isObjB] using ih out
    | jstr s => simpa [extractElementsLoop, List.filter_cons, isObjB] using ih out
    | jarr l => simpa [extractElementsLoop, List.filter_cons, isObjB] using ih out

/-- One path step of the elements extraction, declaratively. -/
lemma extractElementsAtPath_eq (c : J) (p : List PKey) (out : List J) :
    extractElementsAtPath c p out =
      out ++ (((sourcesListAt c p).filter isObjB).filter isLineToolItem).map projectElem := by
  unfold extractElementsAtPath sourcesListAt
  cases hs : _safe_get c p with
  | none => simp
  | some v =>
    cases v with
    | jarr l => exact extractElementsLoop_eq l out
    | jnull => simp
    | jbool b => simp
    | jint n => simp
    | jstr s => simp
    | jobj fs => simp

/-- The core elements extraction is the concatenation of the filtered,
projected dict entries of the two structural paths, in source order. -/
lemma extractElementsCore_eq (c : J) :
    extractElementsCore c =
      (((sourcesListAt c path1).filter isObjB ++ (sourcesListAt c path2).filter isObjB).filter
          isLineToolItem).map projectElem := by
  unfold extractElementsCore
  rw [extractElementsAtPath_eq, extractElementsAtPath_eq]
  simp [List.filter_append]

/-- On a non-string content the decode step of the elements extraction
is skipped. -/
lemma extract_of_nonstr (jl : String → Option J) (c : J) (hns : ∀ s, c ≠ J.jstr s) :
    _extract_elements_from_content jl c = extractElementsCore c := by
  cases c with
  | jstr s => exact absurd rfl (hns s)
  | jnull => rfl
  | jbool b => rfl
  | jint n => rfl
  | jarr l => rfl
  | jobj fs => rfl

/-- The sources loop keeps exactly the dict entries, in order, after the
accumulator. -/
lemma iterSourcesLoop_eq : ∀ (sources out : List J),
    iterSourcesLoop sources out = out ++ sources.filter isObjB := by
  intro sources
  induction sources with
  | nil => intro out; simp [iterSourcesLoop]
  | cons item rest ih =>
    intro out
    cases item with
    | jobj fs =>
      simp only [iterSourcesLoop, ih, List.filter_cons, isObjB]
      simp
    | jnull => simpa [iterSourcesLoop, List.filter_cons, isObjB] using ih out
    | jbool b => simpa [iterSourcesLoop, List.filter_cons, isObjB] using ih out
    | jint n => simpa [iterSourcesLoop, List.filter_cons, isObjB] using ih out
    | jstr s => simpa [iterSourcesLoop, List.filter_cons, isObjB] using ih out
    | jarr l => simpa [iterSourcesLoop, List.filter_cons, isObjB] using ih out

/-- One path step of the sources collection, declaratively. -/
lemma iterSourcesAtPath_eq (c : J) (p : List PKey) (out : List J) :
    iterSourcesAtPath c p out = out ++ (sourcesListAt c p).filter isObjB := by
  unfold iterSourcesAtPath sourcesListAt
  cases hs : _safe_get c p with
  | none => simp
  | some v =>
    cases v with
    | jarr l => exact iterSourcesLoop_eq l out
    | jnull => simp
    | jbool b => simp
    | jint n => simp
    | jstr s => simp
    | jobj fs => simp

/-- The core sources collection is the concatenation of the dict entries
of the two structural paths. -/
lemma iterSourcesCore_eq (c : J) :
    iterSourcesCore c =
      (sourcesListAt c path1).filter isObjB ++ (sourcesListAt c path2).filter isObjB := by
  unfold iterSourcesCore
  rw [iterSourcesAtPath_eq, iterSourcesAtPath_eq]
  simp

/-- On a non-string content the decode step of the sources collection is
skipped. -/
lemma iter_of_nonstr (jl : String → Option J) (c : J) (hns : ∀ s, c ≠ J.jstr s) :
    _iter_sources jl c = iterSourcesCore c := by
  cases c with
  | jstr s => exact absurd rfl (hns s)
  | jnull => rfl
  | jbool b => rfl
  | jint n => rfl
  | jarr l => rfl
  | jobj fs => rfl

/-- Claim C7 (confirmed): for every content structure (the decoded,
non-string form), the extracted elements list is exactly the dict
entries of the two content paths whose type field is a string containing
"LineTool" (case-sensitive), projected to type, state, points and
indexes, in source order with the two paths' results concatenated (both
always explored) and never de-duplicated. -/
theorem c7_theorem (jl : String → Option J) (c : J) (hns : ∀ s, c ≠ J.jstr s) :
    _extract_elements_from_content jl c =
      (((sourcesListAt c path1).filter isObjB ++ (sourcesListAt c path2).filter isObjB).filter
          isLineToolItem).map projectElem :=
  (extract_of_nonstr jl c hns).trans (extractElementsCore_eq c)

/-- A LineTool-typed source entry used by concrete inputs. -/
def srcLine1 : J :=
  J.jobj [("type", J.jstr "LineToolTrendLine"), ("state", J.jobj [("w", J.jint 2)]),
          ("points", J.jarr [J.jint 1])]

/-- A non-LineTool source entry used by concrete inputs. -/
def srcOther : J :=
  J.jobj [("type", J.jstr "StudyMACD"), ("state", J.jobj [])]

/-- A second LineTool-typed source entry used by concrete inputs. -/
def srcLine2 : J :=
  J.jobj [("type", J.jstr "LineToolText"), ("indexes", J.jint 2)]

/-- A concrete content structure with one pane carrying a three-entry
sources array whose entries 1 and 3 are LineTool-typed. -/
def c7content : J :=
  J.jobj [("panes", J.jarr [J.jobj [("sources", J.jarr [srcLine1, srcOther, srcLine2])]])]

/-- Witness for C7: on the spec's three-entry sources array the
characterization holds and yields exactly the two LineTool projections,
entry 1 then entry 3. -/
theorem c7_witness :
    _extract_elements_from_content (fun _ => none) c7content =
      (((sourcesListAt c7content path1).filter isObjB ++
          (sourcesListAt c7content path2).filter isObjB).filter isLineToolItem).map projectElem ∧
    _extract_elements_from_content (fun _ => none) c7content =
      [projectElem srcLine1, projectElem srcLine2] :=
  ⟨c7_theorem (fun _ => none) c7content (fun _ h => J.noConfusion h), rfl⟩

/-- Claim C10 (confirmed): the elements extraction and the price-scale
candidate collection both read only the sources of the first pane of
content and of the first pane of the first chart; two contents agreeing
at those two paths produce identical elements and identical source
candidates, so sources in later panes or later charts never contribute. -/
theorem c10_theorem (jl : String → Option J) (c c2 : J)
    (h1 : ∀ s, c ≠ J.jstr s) (h2 : ∀ s, c2 ≠ J.jstr s)
    (e1 : _safe_get c path1 = _safe_get c2 path1)
    (e2 : _safe_get c path2 = _safe_get c2 path2) :
    _extract_elements_from_content jl c = _extract_elements_from_content jl c2 ∧
    _iter_sources jl c = _iter_sources jl c2 := by
  have s1 : sourcesListAt c path1 = sourcesListAt c2 path1 := by
    unfold sourcesListAt; rw [e1]
  have s2 : sourcesListAt c path2 = sourcesListAt c2 path2 := by
    unfold sourcesListAt; rw [e2]
  constructor
  · rw [extract_of_nonstr jl c h1, extract_of_nonstr jl c2 h2,
      extractElementsCore_eq, extractElementsCore_eq, s1, s2]
  · rw [iter_of_nonstr jl c h1, iter_of_nonstr jl c2 h2,
      iterSourcesCore_eq, iterSourcesCore_eq, s1, s2]

/-- A concrete content whose first pane carries srcLine1 and whose
second pane carries a different source. -/
def c10contentA : J :=
  J.jobj [("panes", J.jarr [J.jobj [("sources", J.jarr [srcLine1])],
                            J.jobj [("sources", J.jarr [srcOther, srcLine2])]]),
          ("charts", J.jarr [])]

/-- The same content with the second pane and the charts key removed. -/
def c10contentB : J :=
  J.jobj [("panes", J.jarr [J.jobj [("sources", J.jarr [srcLine1])]])]

/-- Witness for C10: dropping the second pane (and an empty charts
array) changes neither the elements nor the collected sources. -/
theorem c10_witness :
    _extract_elements_from_content (fun _ => none) c10contentA =
      _extract_elements_from_content (fun _ => none) c10contentB ∧
    _iter_sources (fun _ => none) c10contentA = _iter_sources (fun _ => none) c10contentB :=
  c10_theorem (fun _ => none) c10contentA c10contentB
    (fun _ h => J.noConfusion h) (fun _ h => J.noConfusion h) rfl rfl

/-- Counterexample to claim C3: a payload whose symbol pricescale holds
the non-integer string "x" and whose symbol price_scale holds the
integer 3 resolves to None, not to 3 — the resolver reads price_scale
only when pricescale is absent, so a present non-integer pricescale
skips price_scale entirely. -/
theorem c3_counterexample :
    get_pricescale_from_idea (fun _ => none)
        [("symbol", J.jobj [("pricescale", J.jstr "x"), ("price_scale", J.jint 3)])] = none ∧
    get_pricescale_from_idea (fun _ => none)
        [("symbol", J.jobj [("pricescale", J.jstr "x"), ("price_scale", J.jint 3)])] ≠
      some 3 :=
  ⟨rfl, fun h => Option.noConfusion h⟩

/-- Claim C3 as amended: the resolver consults symbol price_scale only
when symbol pricescale is absent; when pricescale is present (non-null)
but not integer-typed, the symbol-level step yields no match and the
search continues directly at the content-source candidates (the
MainSeries-typed sources' state.pricescale / formattingDeps.pricescale
first, then all sources'), whatever integer price_scale may hold; within
the content candidates non-integer values are skipped with the search
continuing, as the claim states. -/
theorem c3_amended (jl : String → Option J) (v w c : J) (rest : List (String × J))
    (hnn : v.isNull = false) (hni : asInt v = none) :
    get_pricescale_from_idea jl
        (("symbol", J.jobj [("pricescale", v), ("price_scale", w)]) ::
          ("content", c) :: rest) =
      (match pricescaleFromMainSeries (_iter_sources jl c) with
       | some n => some n
       | none => pricescaleFromAnySource (_iter_sources jl c)) := by
  have hsym : symbolCandidate
      (("symbol", J.jobj [("pricescale", v), ("price_scale", w)]) ::
        ("content", c) :: rest) = v := by
    simp [symbolCandidate, jGet, lookupField, pyOrObj, pyOr, pyTruthy, pyGetD, hnn]
  have hcontent : jGet
      (("symbol", J.jobj [("pricescale", v), ("price_scale", w)]) ::
        ("content", c) :: rest) "content" = c := by
    simp [jGet, lookupField]
  unfold get_pricescale_from_idea
  rw [hsym, hni, hcontent]

/-- Witness for C3 as amended: with pricescale = "x" and price_scale = 3
and a null content, the resolution equals the content-source resolution
(here None), ignoring the integer price_scale. -/
theorem c3_witness :
    get_pricescale_from_idea (fun _ => none)
        (("symbol", J.jobj [("pricescale", J.jstr "x"), ("price_scale", J.jint 3)]) ::
          ("content", J.jnull) :: []) =
      (match pricescaleFromMainSeries (_iter_sources (fun _ => none) J.jnull) with
       | some n => some n
       | none => pricescaleFromAnySource (_iter_sources (fun _ => none) J.jnull)) :=
  c3_amended (fun _ => none) (J.jstr "x") (J.jint 3) J.jnull [] rfl rfl

/-- Retry loop under an all-failing transport: from attempt number
attempt with k + 1 attempts remaining and attempt + k = R, the loop
raises the last attempt's error, sleeps base * a seconds after each
failed attempt a except the final one, and makes all k + 1 remaining
attempts. -/
lemma httpGetLoop_allFail {ε : Type} (t : Nat → TResult ε) (base R : Nat) (url : String)
    (hfail : ∀ i, isFailAttempt (t i) = true) :
    ∀ (k attempt : Nat) (last : Option (FetchErr ε)), attempt + k = R →
      httpGetLoop t base R url attempt (k + 1) last =
        (Except.error (some (errOf (t R) url)),
          (List.range' attempt k).map (fun a => base * a), k + 1) := by
  intro k
  induction k with
  | zero =>
    intro attempt last hR
    simp only [Nat.add_zero] at hR
    subst hR
    cases ht : t attempt with
    | resp st text =>
      have hf := hfail attempt
      rw [ht] at hf
      simp only [isFailAttempt, Bool.not_eq_true'] at hf
      rw [httpGetLoop, ht]
      simp [hf, httpGetLoop, errOf, ht]
    | exc e0 =>
      rw [httpGetLoop, ht]
      simp [httpGetLoop, errOf, ht]
  | succ k ih =>
    intro attempt last hR
    have hlt : attempt < R := by omega
    have hR2 : attempt + 1 + k = R := by omega
    cases ht : t attempt with
    | resp st text =>
      have hf := hfail attempt
      rw [ht] at hf
      simp only [isFailAttempt, Bool.not_eq_true'] at hf
      rw [httpGetLoop, ht]
      simp only [hf, Bool.false_eq_true, if_false]
      rw [ih (attempt + 1) (some (FetchErr.httpStatus st url)) hR2]
      simp [hlt, List.range'_succ]
    | exc e0 =>
      rw [httpGetLoop, ht]
      dsimp only
      rw [ih (attempt + 1) (some (FetchErr.cause e0)) hR2]
      simp [hlt, List.range'_succ]

/-- Claim C8 (confirmed): against a transport that fails on every
attempt, http_get makes exactly R transport attempts, sleeps
base * attemptNumber seconds between consecutive attempts and not after
the final one, and fails with the last attempt's error, which carries
the URL and status or the transport cause. -/
theorem c8_theorem {ε : Type} (t : Nat → TResult ε) (base R : Nat) (url : String)
    (hR : 1 ≤ R) (hfail : ∀ i, isFailAttempt (t i) = true) :
    http_get t base R url =
      (Except.error (some (errOf (t R) url)),
        (List.range' 1 (R - 1)).map (fun a => base * a), R) := by
  obtain ⟨k, rfl⟩ : ∃ k, R = k + 1 := ⟨R - 1, by omega⟩
  unfold http_get
  rw [httpGetLoop_allFail t base (k + 1) url hfail k 1 none (by omega)]
  simp

/-- Witness for C8: a transport raising on every attempt, with R = 3 and
a back-off base of 5 seconds, produces exactly 3 attempts, the sleeps
5 and 10 between consecutive attempts, and the final cause. -/
theorem c8_witness :
    http_get (fun _ => TResult.exc ()) 5 3 "u" =
      (Except.error (some (FetchErr.cause ())), [5, 10], 3) :=
  (c8_theorem (fun _ => TResult.exc ()) 5 3 "u" (by decide) (fun _ => rfl)).trans rfl

/-- Replacing the value at one key leaves every other key's lookup
unchanged. -/
lemma lookupField_map_set_ne (fs : List (String × J)) (k : String) (v : J) (k2 : String)
    (hne : k2 ≠ k) :
    lookupField (fs.map (fun p => if p.1 = k then (k, v) else p)) k2 = lookupField fs k2 := by
  induction fs with
  | nil => rfl
  | cons p rest ih =>
    by_cases hp : p.1 = k
    · have hk2 : ¬ (k = k2) := fun h => hne h.symm
      have hp2 : ¬ (p.1 = k2) := fun h => hne (hp.symm.trans h).symm
      simp [lookupField, hp, hk2, hp2, ih]
    · simp [lookupField, hp, ih]

/-- Replacing the value at a present key makes its lookup the new value. -/
lemma lookupField_map_set_self (fs : List (String × J)) (k : String) (v : J)
    (hany : fs.any (fun p => p.1 = k) = true) :
    lookupField (fs.map (fun p => if p.1 = k then (k, v) else p)) k = some v := by
  induction fs with
  | nil => simp at hany
  | cons p rest ih =>
    by_cases hp : p.1 = k
    · simp [lookupField, hp]
    · have hrest : rest.any (fun p => p.1 = k) = true := by
        simpa [List.any_cons, hp] using hany
      simp [lookupField, hp, ih hrest]

/-- When no entry carries the key, its lookup is none. -/
lemma lookupField_none_of_any_false (fs : List (String × J)) (k : String)
    (h : fs.any (fun p => p.1 = k) = false) : lookupField fs k = none := by
  induction fs with
  | nil => rfl
  | cons p rest ih =>
    simp only [List.any_cons, Bool.or_eq_false_iff, decide_eq_false_iff_not] at h
    simp [lookupField, h.1, ih h.2]

/-- Lookup distributes over append, preferring the left list. -/
lemma lookupField_append (l1 l2 : List (String × J)) (k : String) :
    lookupField (l1 ++ l2) k =
      (match lookupField l1 k with
       | some v => some v
       | none => lookupField l2 k) := by
  induction l1 with
  | nil => rfl
  | cons p rest ih =>
    by_cases hp : p.1 = k
    · simp [lookupField, hp]
    · simp [lookupField, hp, ih]

/-- Setting one key via jsonb_set_top leaves every other key's payload
lookup unchanged. -/
lemma jLookup_jsonb_set_ne (fs : List (String × J)) (k : String) (v : J) (k2 : String)
    (hne : k2 ≠ k) :
    jLookup (some (jsonb_set_top (J.jobj fs) k v)) k2 = lookupField fs k2 := by
  unfold jsonb_set_top jLookup
  by_cases hany : (fs.any fun p => p.1 = k) = true
  · simp only [hany, if_true]
    exact lookupField_map_set_ne fs k v k2 hne
  · have hany2 : (fs.any fun p => p.1 = k) = false := by
      simp only [Bool.not_eq_true] at hany
      exact hany
    simp only [hany2, Bool.false_eq_true, if_false]
    show lookupField (fs ++ [(k, v)]) k2 = lookupField fs k2
    rw [lookupField_append]
    have hkk : ¬ (k = k2) := fun h => hne h.symm
    cases hl : lookupField fs k2 with
    | some v2 => simp
    | none => simp [lookupField, hkk]

/-- Setting one key via jsonb_set_top makes that key's payload lookup
the new value. -/
lemma jLookup_jsonb_set_self (fs : List (String × J)) (k : String) (v : J) :
    jLookup (some (jsonb_set_top (J.jobj fs) k v)) k = some v := by
  unfold jsonb_set_top jLookup
  by_cases hany : (fs.any fun p => p.1 = k) = true
  · simp only [hany, if_true]
    exact lookupField_map_set_self fs k v hany
  · have hany2 : (fs.any fun p => p.1 = k) = false := by
      simp only [Bool.not_eq_true] at hany
      exact hany
    simp only [hany2, Bool.false_eq_true, if_false]
    show lookupField (fs ++ [(k, v)]) k = some v
    rw [lookupField_append, lookupField_none_of_any_false fs k hany2]
    simp [lookupField]

/-- Claim C9 (confirmed): the non-dry-run BackfillRepair patch on a row
holding an object payload sets exactly the pricescale payload field and
the scraped_at column; every other payload field's value and every other
column of the row is identical to its pre-patch value. -/
theorem c9_theorem (row : ChartRow) (ps now_epoch : Int) (fs : List (String × J))
    (hdata : row.data = some (J.jobj fs)) :
    (∀ k2, k2 ≠ "pricescale" →
      jLookup (backfill_patch row ps now_epoch).data k2 = jLookup row.data k2) ∧
    jLookup (backfill_patch row ps now_epoch).data "pricescale" = some (J.jint ps) ∧
    (backfill_patch row ps now_epoch).uuid = row.uuid ∧
    (backfill_patch row ps now_epoch).username = row.username ∧
    (backfill_patch row ps now_epoch).symbol = row.symbol ∧
    (backfill_patch row ps now_epoch).created_at = row.created_at ∧
    (backfill_patch row ps now_epoch).interval = row.interval ∧
    (backfill_patch row ps now_epoch).direction = row.direction ∧
    (backfill_patch row ps now_epoch).first_seen_at = row.first_seen_at ∧
    (backfill_patch row ps now_epoch).source_page = row.source_page ∧
    (backfill_patch row ps now_epoch).scraped_at = some now_epoch := by
  have hpatch : (backfill_patch row ps now_epoch).data =
      some (jsonb_set_top (J.jobj fs) "pricescale" (J.jint ps)) := by
    simp [backfill_patch, hdata]
  refine ⟨?_, ?_, rfl, rfl, rfl, rfl, rfl, rfl, rfl, rfl, rfl⟩
  · intro k2 hk2
    rw [hpatch, hdata]
    exact jLookup_jsonb_set_ne fs "pricescale" (J.jint ps) k2 hk2
  · rw [hpatch]
    exact jLookup_jsonb_set_self fs "pricescale" (J.jint ps)

/-- A concrete persisted row used by the C9 witness. -/
def backfillRow0 : ChartRow :=
  { uuid := "u1", username := some "alice", symbol := some "EURUSD",
    created_at := some 100, interval := some "1D", direction := some "long",
    data := some (J.jobj [("name", J.jstr "t"), ("pricescale", J.jnull)]),
    scraped_at := some 50, first_seen_at := 1, source_page := "currencies_recent" }

/-- Witness for C9: patching pricescale = 7 at time 99 on a concrete row
sets pricescale and scraped_at while the name payload field and the
username column keep their values. -/
theorem c9_witness :
    jLookup (backfill_patch backfillRow0 7 99).data "name" = some (J.jstr "t") ∧
    jLookup (backfill_patch backfillRow0 7 99).data "pricescale" = some (J.jint 7) ∧
    (backfill_patch backfillRow0 7 99).username = some "alice" ∧
    (backfill_patch backfillRow0 7 99).scraped_at = some 99 := by
  obtain ⟨hframe, hset, -, hun, -, -, -, -, -, -, hsc⟩ :=
    c9_theorem backfillRow0 7 99 [("name", J.jstr "t"), ("pricescale", J.jnull)] rfl
  exact ⟨(hframe "name" (by decide)).trans rfl, hset, hun.trans rfl, hsc⟩

end TVW
